import Mathlib

/-!
Verification development for the echovault voice-assistant core.

The Python source is shallowly embedded: each loop becomes a structurally
recursive Lean function over the (finite prefix of the) frame stream it
consumes, stateful objects become explicit state records, and exception
control flow (`try`/`except`/`finally`) becomes explicit outcome values.
Timeouts given as float seconds in Python are modelled as whole
milliseconds (`Nat`); for every configuration appearing in the claims
(1.0 s / 30 ms, 5.0 s / 30 ms) the Python float expression
`int(t * 1000 / frame_duration_ms)` and the natural-number floor division
`tMs / frameDurationMs` agree exactly.
-/

namespace EchoVault

/-! ## AudioRecorder.record_with_vad (src/audio/recorder.py)

A frame read from the device is abstracted to an element of a type `α`
together with `flen f` (the byte length of the read, `len(data)`) and
`isSpeech f` (the value of `vad.is_speech(data[:frame_bytes], sample_rate)`
on that read). The loop collects the list of appended frames (`frames` in
the source); the final `np.frombuffer(b"".join(frames))` is injective on
the byte level, so the list of frames is the faithful unit of observation.
-/

/-- Result of the VAD read loop: the frames appended to `frames`, and the
portion of the incoming stream the loop never read (it stopped first). -/
structure VadOut (α : Type) where
  collected : List α
  rest : List α
deriving Repr, DecidableEq

/-- The `while True` loop body of `record_with_vad`, lines 93-116:
skip short reads, on speech append and zero `silent_frames`, on silence
after speech started append and bump `silent_frames` (break at the
threshold), on silence before speech bump `waiting_frames` (break at the
waiting threshold when one is configured). -/
def vadLoop {α : Type} (frameBytes maxSilent maxWaiting : Nat)
    (flen : α → Nat) (isSpeech : α → Bool) :
    List α → List α → Bool → Nat → Nat → VadOut α
  | [], collected, _, _, _ => ⟨collected, []⟩
  | f :: input, collected, started, silent, waiting =>
    if flen f < frameBytes then
      vadLoop frameBytes maxSilent maxWaiting flen isSpeech input
        collected started silent waiting
    else if isSpeech f then
      vadLoop frameBytes maxSilent maxWaiting flen isSpeech input
        (collected ++ [f]) true 0 waiting
    else if started then
      if maxSilent ≤ silent + 1 then ⟨collected ++ [f], input⟩
      else vadLoop frameBytes maxSilent maxWaiting flen isSpeech input
        (collected ++ [f]) started (silent + 1) waiting
    else
      if 0 < maxWaiting ∧ maxWaiting ≤ waiting + 1 then ⟨collected, input⟩
      else vadLoop frameBytes maxSilent maxWaiting flen isSpeech input
        collected started silent (waiting + 1)

/-- `int(timeout_s * 1000 / frame_duration_ms)` with the timeout expressed
in whole milliseconds: floor division. -/
def framesForTimeout (timeoutMs frameDurationMs : Nat) : Nat :=
  timeoutMs / frameDurationMs

/-- `max_silent_frames = int(silence_timeout * 1000 / frame_duration_ms)`. -/
def maxSilentFramesOf (silenceTimeoutMs frameDurationMs : Nat) : Nat :=
  framesForTimeout silenceTimeoutMs frameDurationMs

/-- `max_waiting_frames = int(listen_timeout * 1000 / frame_duration_ms)
if listen_timeout > 0 else 0`. -/
def maxWaitingFramesOf (listenTimeoutMs frameDurationMs : Nat) : Nat :=
  if 0 < listenTimeoutMs then framesForTimeout listenTimeoutMs frameDurationMs
  else 0

/-- `frame_size = int(sample_rate * frame_duration_ms / 1000)`. -/
def frameSizeOf (sampleRate frameDurationMs : Nat) : Nat :=
  sampleRate * frameDurationMs / 1000

/-- `frame_bytes = frame_size * 2` (int16 samples). -/
def frameBytesOf (sampleRate frameDurationMs : Nat) : Nat :=
  frameSizeOf sampleRate frameDurationMs * 2

/-- `AudioRecorder.record_with_vad` on a given stream of reads: the loop is
entered with empty `frames`, `speech_started = False`, and zeroed
counters. -/
def record_with_vad {α : Type} (sampleRate silenceTimeoutMs frameDurationMs
    listenTimeoutMs : Nat) (flen : α → Nat) (isSpeech : α → Bool)
    (input : List α) : VadOut α :=
  vadLoop (frameBytesOf sampleRate frameDurationMs)
    (maxSilentFramesOf silenceTimeoutMs frameDurationMs)
    (maxWaitingFramesOf listenTimeoutMs frameDurationMs)
    flen isSpeech input [] false 0 0

/-- A concrete frame for test scenarios: classification flag and byte
length. -/
def frameProbe : Bool × Nat → Bool := Prod.fst

/-- Byte length of a concrete test frame. -/
def frameLen : Bool × Nat → Nat := Prod.snd

/-- Scenario A input: 5 speech frames then 40 silence frames, each one a
full 30 ms read at 16 kHz (960 bytes). -/
def scenarioA : List (Bool × Nat) :=
  List.replicate 5 (true, 960) ++ List.replicate 40 (false, 960)

/-- Scenario B input: 200 silence frames of 960 bytes. -/
def scenarioB : List (Bool × Nat) :=
  List.replicate 200 (false, 960)

/-- While speech has not started, full-length silent frames only bump
`waiting_frames`, as long as the waiting threshold is not reached. -/
lemma vadLoop_waiting {α : Type} (fb mS mW : Nat) (flen : α → Nat)
    (isSpeech : α → Bool) (pre : List α)
    (hpre : ∀ f ∈ pre, fb ≤ flen f ∧ isSpeech f = false) :
    ∀ (rest c : List α) (s w : Nat), (mW = 0 ∨ w + pre.length < mW) →
    vadLoop fb mS mW flen isSpeech (pre ++ rest) c false s w
      = vadLoop fb mS mW flen isSpeech rest c false s (w + pre.length) := by
  induction pre with
  | nil => intro rest c s w _; simp
  | cons f pre ih =>
    intro rest c s w hw
    simp only [List.length_cons] at hw
    obtain ⟨hflen, hsp⟩ := hpre f (by simp)
    rw [List.cons_append]
    simp only [vadLoop]
    rw [if_neg (by omega), hsp]
    simp only [Bool.false_eq_true, if_false]
    rw [if_neg (by omega)]
    have step := ih (fun f hf => hpre f (by simp [hf])) rest c s (w + 1)
      (by rcases hw with h | h
          · exact Or.inl h
          · right; omega)
    rw [step]
    have harith : w + 1 + pre.length = w + (f :: pre).length := by
      simp only [List.length_cons]; omega
    rw [harith]

/-- Once speech has started with `silent_frames = s`, a run of full-length
silent frames is appended one by one until the silence threshold `mS` is
reached, at which point the loop breaks having consumed exactly `mS - s`
of them. -/
lemma vadLoop_silentRun {α : Type} (fb mS mW : Nat) (flen : α → Nat)
    (isSpeech : α → Bool) :
    ∀ (t s : Nat), s + t = mS → 0 < t →
    ∀ (run rest c : List α) (w : Nat),
    (∀ f ∈ run, fb ≤ flen f ∧ isSpeech f = false) → t ≤ run.length →
    vadLoop fb mS mW flen isSpeech (run ++ rest) c true s w
      = ⟨c ++ run.take t, run.drop t ++ rest⟩ := by
  intro t
  induction t with
  | zero => intro s _ h0; omega
  | succ t ih =>
    intro s hs _ run rest c w hrun hlen
    cases run with
    | nil => simp at hlen
    | cons f run =>
      obtain ⟨hflen, hsp⟩ := hrun f (by simp)
      rw [List.cons_append]
      simp only [vadLoop]
      rw [if_neg (by omega), hsp]
      simp only [Bool.false_eq_true, if_false, if_true]
      rcases Nat.eq_zero_or_pos t with ht | ht
      · subst ht
        rw [if_pos (by omega)]
        simp
      · rw [if_neg (by omega)]
        rw [ih (s + 1) (by omega) ht run rest (c ++ [f]) w
          (fun g hg => hrun g (by simp [hg])) (by simpa using hlen)]
        simp

/-- When no frame is ever speech and a waiting limit is configured, the
loop appends nothing and stops at the waiting threshold. -/
lemma vadLoop_allSilent {α : Type} (fb mS mW : Nat) (flen : α → Nat)
    (isSpeech : α → Bool) :
    ∀ (input c : List α) (s w : Nat),
    (∀ f ∈ input, fb ≤ flen f ∧ isSpeech f = false) →
    0 < mW → w < mW → mW ≤ w + input.length →
    vadLoop fb mS mW flen isSpeech input c false s w
      = ⟨c, input.drop (mW - w)⟩ := by
  intro input
  induction input with
  | nil => intro c s w _ _ hw hlen; simp at hlen; omega
  | cons f input ih =>
    intro c s w hall hmW hw hlen
    obtain ⟨hflen, hsp⟩ := hall f (by simp)
    simp only [vadLoop]
    rw [if_neg (by omega), hsp]
    simp only [Bool.false_eq_true, if_false]
    by_cases hbreak : mW ≤ w + 1
    · rw [if_pos ⟨hmW, hbreak⟩]
      have : mW - w = 1 := by omega
      rw [this]
      simp
    · rw [if_neg (by omega)]
      rw [ih c s (w + 1) (fun g hg => hall g (by simp [hg])) hmW (by omega)
        (by simp at hlen ⊢; omega)]
      have : mW - w = (mW - (w + 1)) + 1 := by omega
      rw [this]
      simp

/-- Changing the classifier on frames of full byte length only: the loop
never consults the classifier on short reads, so runs agree whenever the
classifiers agree on full-length frames. -/
lemma vadLoop_classifier_congr {α : Type} (fb mS mW : Nat) (flen : α → Nat)
    (isSpeech isSpeech2 : α → Bool)
    (hagree : ∀ g, fb ≤ flen g → isSpeech g = isSpeech2 g) :
    ∀ (input c : List α) (started : Bool) (s w : Nat),
    vadLoop fb mS mW flen isSpeech input c started s w
      = vadLoop fb mS mW flen isSpeech2 input c started s w := by
  intro input
  induction input with
  | nil => intro c started s w; simp [vadLoop]
  | cons f input ih =>
    intro c started s w
    simp only [vadLoop]
    by_cases h1 : flen f < fb
    · rw [if_pos h1, if_pos h1, ih]
    · rw [if_neg h1, if_neg h1, hagree f (Nat.le_of_not_lt h1)]
      by_cases h2 : isSpeech2 f = true
      · rw [if_pos h2, if_pos h2, ih]
      · rw [if_neg h2, if_neg h2]
        cases started with
        | false =>
          simp only [Bool.false_eq_true, if_false]
          by_cases h3 : 0 < mW ∧ mW ≤ w + 1
          · rw [if_pos h3, if_pos h3]
          · rw [if_neg h3, if_neg h3, ih]
        | true =>
          simp only [if_true]
          by_cases h3 : mS ≤ s + 1
          · rw [if_pos h3, if_pos h3]
          · rw [if_neg h3, if_neg h3, ih]

end EchoVault

namespace EchoVault

/-- C1: if the first frame classified as speech is frame `k` (all earlier
frames are full-length silence, and the waiting threshold is not reached
before frame `k`) and every later frame is full-length silence, then
`record_with_vad` returns exactly frames `k .. k + T` of the stream, where
`T = int(silence_timeout * 1000 / frame_duration_ms)`; in particular with
frame duration 30 ms and silence timeout 1.0 s (threshold 33), 5 speech
frames followed by 40 silence frames yield an utterance of exactly 38
frames. -/
theorem vad_speech_then_silence {α : Type}
    (sampleRate silenceTimeoutMs frameDurationMs listenTimeoutMs : Nat)
    (flen : α → Nat) (isSpeech : α → Bool) (pre : List α) (fk : α)
    (post : List α)
    (hT : 0 < maxSilentFramesOf silenceTimeoutMs frameDurationMs)
    (hpre : ∀ f ∈ pre,
      frameBytesOf sampleRate frameDurationMs ≤ flen f ∧ isSpeech f = false)
    (hklen : frameBytesOf sampleRate frameDurationMs ≤ flen fk)
    (hksp : isSpeech fk = true)
    (hpost : ∀ f ∈ post,
      frameBytesOf sampleRate frameDurationMs ≤ flen f ∧ isSpeech f = false)
    (hwait : maxWaitingFramesOf listenTimeoutMs frameDurationMs = 0 ∨
      pre.length < maxWaitingFramesOf listenTimeoutMs frameDurationMs)
    (hlen : maxSilentFramesOf silenceTimeoutMs frameDurationMs ≤ post.length) :
    (record_with_vad sampleRate silenceTimeoutMs frameDurationMs
        listenTimeoutMs flen isSpeech (pre ++ fk :: post)).collected
      = ((pre ++ fk :: post).drop pre.length).take
          (maxSilentFramesOf silenceTimeoutMs frameDurationMs + 1)
    ∧ (record_with_vad 16000 1000 30 0 frameLen frameProbe
        scenarioA).collected.length = 38 := by
  refine ⟨?_, by decide⟩
  simp only [record_with_vad]
  rw [vadLoop_waiting _ _ _ _ _ pre hpre (fk :: post) [] 0 0
    (by rcases hwait with h | h
        · exact Or.inl h
        · right; omega)]
  simp only [vadLoop]
  rw [if_neg (by omega), hksp]
  simp only [if_true]
  rw [← List.append_nil post]
  rw [vadLoop_silentRun _ _ _ _ _
    (maxSilentFramesOf silenceTimeoutMs frameDurationMs) 0 (by omega) hT
    post [] ([] ++ [fk]) (0 + pre.length)
    (by simpa using hpost) (by simpa using hlen)]
  simp [List.drop_left, List.take_succ_cons]

/-- Witness for C1 at a concrete input: no leading silence, one speech
frame, 33 trailing silence frames. -/
theorem vad_speech_then_silence_witness :
    (record_with_vad 16000 1000 30 0 frameLen frameProbe
        ([] ++ (true, 960) :: List.replicate 33 (false, 960))).collected
      = ((([] : List (Bool × Nat)) ++
            (true, 960) :: List.replicate 33 (false, 960)).drop
          (List.length ([] : List (Bool × Nat)))).take
          (maxSilentFramesOf 1000 30 + 1)
    ∧ (record_with_vad 16000 1000 30 0 frameLen frameProbe
        scenarioA).collected.length = 38 :=
  vad_speech_then_silence 16000 1000 30 0 frameLen frameProbe
    [] (true, 960) (List.replicate 33 (false, 960))
    (by decide) (by decide) (by decide) (by decide) (by decide)
    (Or.inl (by decide)) (by decide)

set_option maxRecDepth 16384 in
/-- C2: when no frame is ever classified speech and a waiting limit is
configured (`listen_timeout > 0`), `record_with_vad` returns an empty
utterance once the waiting threshold is reached and never appends a
sample; in particular with wait timeout 5.0 s and frame duration 30 ms
(threshold 166), 200 silent frames yield an empty result with the
remaining 34 frames never read. -/
theorem vad_no_speech_times_out {α : Type}
    (sampleRate silenceTimeoutMs frameDurationMs listenTimeoutMs : Nat)
    (flen : α → Nat) (isSpeech : α → Bool) (input : List α)
    (hall : ∀ f ∈ input,
      frameBytesOf sampleRate frameDurationMs ≤ flen f ∧ isSpeech f = false)
    (hW : 0 < maxWaitingFramesOf listenTimeoutMs frameDurationMs)
    (hlen : maxWaitingFramesOf listenTimeoutMs frameDurationMs
      ≤ input.length) :
    (record_with_vad sampleRate silenceTimeoutMs frameDurationMs
        listenTimeoutMs flen isSpeech input).collected = []
    ∧ (record_with_vad sampleRate silenceTimeoutMs frameDurationMs
        listenTimeoutMs flen isSpeech input).rest
      = input.drop (maxWaitingFramesOf listenTimeoutMs frameDurationMs)
    ∧ (record_with_vad 16000 1000 30 5000 frameLen frameProbe
        scenarioB).collected = []
    ∧ (record_with_vad 16000 1000 30 5000 frameLen frameProbe
        scenarioB).rest.length = 34 := by
  have h := vadLoop_allSilent (frameBytesOf sampleRate frameDurationMs)
    (maxSilentFramesOf silenceTimeoutMs frameDurationMs)
    (maxWaitingFramesOf listenTimeoutMs frameDurationMs)
    flen isSpeech input [] 0 0 hall hW hW (by omega)
  refine ⟨?_, ?_, by decide, by decide⟩
  · simp only [record_with_vad]
    rw [h]
  · simp only [record_with_vad]
    rw [h]
    simp

set_option maxRecDepth 16384 in
/-- Witness for C2 at a concrete input: thresholds from 5.0 s / 30 ms,
166 full-length silent frames. -/
theorem vad_no_speech_times_out_witness :
    (record_with_vad 16000 1000 30 5000 frameLen frameProbe
        (List.replicate 166 (false, 960))).collected = []
    ∧ (record_with_vad 16000 1000 30 5000 frameLen frameProbe
        (List.replicate 166 (false, 960))).rest
      = (List.replicate 166 ((false, 960) : Bool × Nat)).drop
          (maxWaitingFramesOf 5000 30)
    ∧ (record_with_vad 16000 1000 30 5000 frameLen frameProbe
        scenarioB).collected = []
    ∧ (record_with_vad 16000 1000 30 5000 frameLen frameProbe
        scenarioB).rest.length = 34 :=
  vad_no_speech_times_out 16000 1000 30 5000 frameLen frameProbe
    (List.replicate 166 (false, 960)) (by decide) (by decide) (by decide)

/-- C8: a read shorter than one full frame's byte length is skipped
without being classified: it changes neither the counters nor the
collected utterance (first two conjuncts), and the classifier's value on
short reads is never consulted — two classifiers agreeing on full-length
frames produce identical captures (third conjunct). -/
theorem vad_short_read_skipped {α : Type}
    (sampleRate silenceTimeoutMs frameDurationMs listenTimeoutMs : Nat)
    (flen : α → Nat) (isSpeech isSpeech2 : α → Bool) (f : α)
    (input c : List α) (started : Bool) (silent waiting : Nat)
    (hshort : flen f < frameBytesOf sampleRate frameDurationMs)
    (hagree : ∀ g, frameBytesOf sampleRate frameDurationMs ≤ flen g →
      isSpeech g = isSpeech2 g) :
    vadLoop (frameBytesOf sampleRate frameDurationMs)
        (maxSilentFramesOf silenceTimeoutMs frameDurationMs)
        (maxWaitingFramesOf listenTimeoutMs frameDurationMs) flen isSpeech
        (f :: input) c started silent waiting
      = vadLoop (frameBytesOf sampleRate frameDurationMs)
        (maxSilentFramesOf silenceTimeoutMs frameDurationMs)
        (maxWaitingFramesOf listenTimeoutMs frameDurationMs) flen isSpeech
        input c started silent waiting
    ∧ record_with_vad sampleRate silenceTimeoutMs frameDurationMs
        listenTimeoutMs flen isSpeech (f :: input)
      = record_with_vad sampleRate silenceTimeoutMs frameDurationMs
        listenTimeoutMs flen isSpeech input
    ∧ record_with_vad sampleRate silenceTimeoutMs frameDurationMs
        listenTimeoutMs flen isSpeech input
      = record_with_vad sampleRate silenceTimeoutMs frameDurationMs
        listenTimeoutMs flen isSpeech2 input := by
  refine ⟨?_, ?_, ?_⟩
  · simp only [vadLoop]
    rw [if_pos hshort]
  · simp only [record_with_vad, vadLoop]
    rw [if_pos hshort]
  · simp only [record_with_vad]
    exact vadLoop_classifier_congr _ _ _ _ _ _ hagree input [] false 0 0

/-- Witness for C8: a 100-byte read in front of a full frame, and a second
classifier differing from the first only on short reads. -/
theorem vad_short_read_skipped_witness :
    vadLoop (frameBytesOf 16000 30) (maxSilentFramesOf 1000 30)
        (maxWaitingFramesOf 0 30) frameLen frameProbe
        ((true, 100) :: [(true, 960)]) [] false 0 0
      = vadLoop (frameBytesOf 16000 30) (maxSilentFramesOf 1000 30)
        (maxWaitingFramesOf 0 30) frameLen frameProbe
        [(true, 960)] [] false 0 0
    ∧ record_with_vad 16000 1000 30 0 frameLen frameProbe
        ((true, 100) :: [(true, 960)])
      = record_with_vad 16000 1000 30 0 frameLen frameProbe [(true, 960)]
    ∧ record_with_vad 16000 1000 30 0 frameLen frameProbe [(true, 960)]
      = record_with_vad 16000 1000 30 0 frameLen
        (fun g => frameProbe g && decide (960 ≤ frameLen g)) [(true, 960)] :=
  vad_short_read_skipped 16000 1000 30 0 frameLen frameProbe
    (fun g => frameProbe g && decide (960 ≤ frameLen g)) (true, 100)
    [(true, 960)] [] false 0 0 (by decide)
    (fun g h => by
      show frameProbe g = (frameProbe g && decide (960 ≤ frameLen g))
      have h9 : 960 ≤ frameLen g := h
      rw [decide_eq_true h9, Bool.and_true])

end EchoVault

namespace EchoVault

/-! ## Capture cleanup under interrupts (src/audio/recorder.py)

`record_with_vad` wraps its read loop in `try/except KeyboardInterrupt:
pass/finally`, so any interrupt is swallowed and the `finally` block stops
and closes the stream before the collected frames are returned.
`record_until_enter` has no such handler: the control thread blocks in
`input()`, and an interrupt raised there propagates out of the function,
skipping `stream.stop_stream()`/`stream.close()` on lines 51-52.
-/

/-- Outcome of one capture operation: `returned = some u` when the
function returns the utterance `u` to its caller, `none` when an
exception escapes the function; `streamClosed` records whether
`stream.stop_stream()` and `stream.close()` ran on that path. -/
structure CaptureOutcome (α : Type) where
  returned : Option (List α)
  streamClosed : Bool
deriving Repr, DecidableEq

/-- `AudioRecorder.record_until_enter` (lines 22-60) under a possible
KeyboardInterrupt: `captured` is what the background capture thread has
appended when the operation ends. With no interrupt, the stop event is
set, the thread joined, the stream stopped and closed, and the frames
returned; when the interrupt arrives during the blocking `input()`, the
exception propagates (there is no `try`/`finally` in the function) and
the stream is neither stopped nor closed. -/
def record_until_enter {α : Type} (captured : List α)
    (interruptDuringInput : Bool) : CaptureOutcome α :=
  if interruptDuringInput then { returned := none, streamClosed := false }
  else { returned := some captured, streamClosed := true }

/-- `AudioRecorder.record_with_vad` with its exception handling (lines
92-124): `interruptAt = some i` models a KeyboardInterrupt delivered at
the `i`-th blocking `stream.read`, so exactly the first `i` frames of the
stream were processed; `except KeyboardInterrupt: pass` swallows the
exception, the `finally` block stops and closes the stream, and the
frames collected so far are returned. -/
def record_with_vad_run {α : Type} (sampleRate silenceTimeoutMs
    frameDurationMs listenTimeoutMs : Nat) (flen : α → Nat)
    (isSpeech : α → Bool) (input : List α) (interruptAt : Option Nat) :
    CaptureOutcome α :=
  match interruptAt with
  | none =>
    { returned := some ((record_with_vad sampleRate silenceTimeoutMs
        frameDurationMs listenTimeoutMs flen isSpeech input).collected),
      streamClosed := true }
  | some i =>
    { returned := some ((record_with_vad sampleRate silenceTimeoutMs
        frameDurationMs listenTimeoutMs flen isSpeech
        (input.take i)).collected),
      streamClosed := true }

/-- C6 fails as stated: in manual capture an interrupt during the blocking
`input()` propagates past the caller (`returned = none`, so no collected
samples are returned) and leaves the stream open
(`streamClosed ≠ true`). -/
theorem manual_capture_interrupt_leaks :
    (record_until_enter [((true, 960) : Bool × Nat)] true).streamClosed
      ≠ true
    ∧ (record_until_enter [((true, 960) : Bool × Nat)] true).returned
      = none := by
  decide

/-- C6 (amended): VAD-gated capture stops and closes the stream and
returns the frames collected so far on every exit path, interrupted at
any read or not; manual capture does so on its normal, non-interrupted
path. -/
theorem capture_interrupt_cleanup {α : Type} (sampleRate silenceTimeoutMs
    frameDurationMs listenTimeoutMs : Nat) (flen : α → Nat)
    (isSpeech : α → Bool) (input : List α) (i : Nat) (captured : List α) :
    (record_with_vad_run sampleRate silenceTimeoutMs frameDurationMs
        listenTimeoutMs flen isSpeech input (some i)).streamClosed = true
    ∧ (record_with_vad_run sampleRate silenceTimeoutMs frameDurationMs
        listenTimeoutMs flen isSpeech input (some i)).returned
      = some ((record_with_vad sampleRate silenceTimeoutMs frameDurationMs
          listenTimeoutMs flen isSpeech (input.take i)).collected)
    ∧ (record_with_vad_run sampleRate silenceTimeoutMs frameDurationMs
        listenTimeoutMs flen isSpeech input none).streamClosed = true
    ∧ (record_with_vad_run sampleRate silenceTimeoutMs frameDurationMs
        listenTimeoutMs flen isSpeech input none).returned
      = some ((record_with_vad sampleRate silenceTimeoutMs frameDurationMs
          listenTimeoutMs flen isSpeech input).collected)
    ∧ record_until_enter captured false
      = { returned := some captured, streamClosed := true } :=
  ⟨rfl, rfl, rfl, rfl, rfl⟩

/-! ## ClaudeLLM (src/llm/claude_llm.py) -/

/-- Python list slice `xs[-n:]`: for `n = 0` this is `xs[0:]`, the whole
list; for `n > 0` it keeps the last `min n (length xs)` elements. -/
def pyTail {α : Type} (n : Nat) (xs : List α) : List α :=
  if n = 0 then xs else xs.drop (xs.length - n)

/-- `ClaudeLLM.respond`, lines 24-29: append the new user message, then,
when the stored history exceeds `max_messages = max_history_pairs * 2`,
set it to `self._history[-max_messages:]`. The result is the `messages`
list passed to the model request on line 35. -/
def respondMessages {α : Type} (maxHistoryPairs : Nat) (history : List α)
    (userMsg : α) : List α :=
  let h := history ++ [userMsg]
  if maxHistoryPairs * 2 < h.length then pyTail (maxHistoryPairs * 2) h
  else h

/-- `ClaudeLLM.respond`, line 43: the stored history after the call also
receives the assistant reply. -/
def respondHistory {α : Type} (maxHistoryPairs : Nat) (history : List α)
    (userMsg assistantMsg : α) : List α :=
  respondMessages maxHistoryPairs history userMsg ++ [assistantMsg]

/-- `ClaudeLLM.reset_conversation`, lines 47-49: `self._history.clear()`. -/
def reset_conversation {α : Type} (_history : List α) : List α := []

/-- C9: resetting an already-empty conversation history succeeds and
leaves the history empty, and resetting twice in a row equals resetting
once. -/
theorem reset_conversation_idempotent {α : Type} (history : List α) :
    reset_conversation ([] : List α) = []
    ∧ reset_conversation (reset_conversation history)
      = reset_conversation history :=
  ⟨rfl, rfl⟩

/-- C10 fails as stated at `max_history_pairs = 0`: the Python slice
`self._history[-0:]` is the whole list, so the request is not bounded by
`2 * max_history_pairs = 0` messages. -/
theorem respond_unbounded_at_zero_pairs :
    ¬ (respondMessages 0 ([] : List Nat) 7).length ≤ 2 * 0 := by
  decide

/-- C10 (amended): for `max_history_pairs ≥ 1`, every `respond` call
sends at most `2 * max_history_pairs` messages to the model, the trimmed
history being a suffix — the most recent entries — of the stored history
with the new user message appended. -/
theorem respond_messages_bounded {α : Type} (maxHistoryPairs : Nat)
    (history : List α) (userMsg : α) (hpos : 1 ≤ maxHistoryPairs) :
    (respondMessages maxHistoryPairs history userMsg).length
      ≤ 2 * maxHistoryPairs
    ∧ List.IsSuffix (respondMessages maxHistoryPairs history userMsg)
        (history ++ [userMsg]) := by
  simp only [respondMessages, pyTail]
  by_cases htrim : maxHistoryPairs * 2 < (history ++ [userMsg]).length
  · rw [if_pos htrim, if_neg (by omega)]
    constructor
    · simp only [List.length_drop]
      omega
    · exact List.drop_suffix _ _
  · rw [if_neg htrim]
    constructor
    · simp only [List.length_append, List.length_singleton] at htrim ⊢
      omega
    · exact List.suffix_refl _

/-- Witness for C10 (amended) at `max_history_pairs = 1` and a three-entry
prior history. -/
theorem respond_messages_bounded_witness :
    (respondMessages 1 [10, 11, 12] 13).length ≤ 2 * 1
    ∧ List.IsSuffix (respondMessages 1 [10, 11, 12] 13)
        ([10, 11, 12] ++ [13]) :=
  respond_messages_bounded 1 [10, 11, 12] 13 (by decide)

end EchoVault

namespace EchoVault

/-! ## EventBus (src/ui/event_bus.py)

`self._listeners` maps an event name to the list of callbacks in
subscription order; it is flattened here to the list of
(event, handler) subscriptions in the order `on` was called, which
preserves each event's per-event order. Handlers are values of a type
`H`; what a handler's invocation does to the live registry (subscribing,
unsubscribing, anything) is a parameter `act`.
-/

/-- The per-event callback list `self._listeners.get(event, [])`. -/
def handlersFor {H : Type} (event : String) (reg : List (String × H)) :
    List H :=
  (reg.filter (fun p => p.1 == event)).map Prod.snd

/-- `EventBus.on`, lines 15-17: append the handler to the event's list. -/
def busOn {H : Type} (event : String) (h : H) (reg : List (String × H)) :
    List (String × H) :=
  reg ++ [(event, h)]

/-- The delivery loop of `EventBus.emit`, lines 22-23: invoke each handler
of the snapshot in order; each invocation may rewrite the live registry.
Returns the invocation log and the final registry. -/
def emitLoop {H : Type} (act : H → List (String × H) → List (String × H)) :
    List H → List (String × H) → List H × List (String × H)
  | [], reg => ([], reg)
  | h :: hs, reg =>
    let out := emitLoop act hs (act h reg)
    (h :: out.1, out.2)

/-- `EventBus.emit`, lines 19-23: take a snapshot
`list(self._listeners.get(event, []))` of the current handler list under
the lock, then invoke every handler in the snapshot in order. -/
def emit {H : Type} (act : H → List (String × H) → List (String × H))
    (event : String) (reg : List (String × H)) :
    List H × List (String × H) :=
  emitLoop act (handlersFor event reg) reg

/-- The delivery log is always exactly the snapshot the loop was given. -/
lemma emitLoop_log {H : Type}
    (act : H → List (String × H) → List (String × H)) :
    ∀ (hs : List H) (reg : List (String × H)),
    (emitLoop act hs reg).1 = hs := by
  intro hs
  induction hs with
  | nil => intro reg; rfl
  | cons h hs ih => intro reg; simp [emitLoop, ih]

/-- C5: a publish invokes exactly the handlers subscribed to that event at
the moment the snapshot is taken, in subscription order, whatever the
handlers do to the registry during delivery; concretely, with two
subscribers on `status_changed` where the second re-subscribes itself to
the same event inside its own invocation, one publish still invokes
exactly handlers 1 then 2, each once. -/
theorem emit_snapshot_delivery {H : Type}
    (act : H → List (String × H) → List (String × H)) (event : String)
    (reg : List (String × H)) :
    (emit act event reg).1 = handlersFor event reg
    ∧ (emit
        (fun h r => if h = 2 then busOn "status_changed" 2 r else r)
        "status_changed"
        (busOn "status_changed" 2 (busOn "status_changed" 1 []))).1
      = [1, 2] := by
  refine ⟨?_, ?_⟩
  · simp [emit, emitLoop_log]
  · rfl

/-! ## OpenWakeWordDetector.listen (src/wakeword/oww_wakeword.py) -/

/-- Observable actions of the wake-word read loop. -/
inductive WakeAction : Type
  | readFrame
  | resetModel
  | trigger
deriving Repr, DecidableEq

/-- The `for model_name, score in prediction.items()` scan, lines 53-58:
at the first score strictly above the threshold, reset the model's
internal state, invoke the callback, and break out of the scan. The
mapping is listed in its iteration (insertion) order. -/
def scanScores (threshold : ℚ) : List (String × ℚ) → List WakeAction
  | [] => []
  | x :: rest =>
    if threshold < x.2 then [WakeAction.resetModel, WakeAction.trigger]
    else scanScores threshold rest

/-- The read loop of `listen`, lines 47-58, over the per-frame score
mappings the model produces: read a frame, scan its scores, and go on to
the next frame (the inner `break` only ends the score scan, not the read
loop). -/
def listenLoop (threshold : ℚ) : List (List (String × ℚ)) → List WakeAction
  | [] => []
  | p :: ps =>
    WakeAction.readFrame :: (scanScores threshold p ++ listenLoop threshold ps)

/-- C4: for a frame whose score mapping holds a score strictly above the
threshold, the frame's action trace is exactly a model reset followed by
the single synchronous trigger callback — the reset strictly precedes the
callback — after which the read loop resumes scanning the following
frames; and for every frame, triggered or not, at most one trigger
occurs. -/
theorem wake_trigger_resets_once (threshold : ℚ) (p : List (String × ℚ))
    (ps : List (List (String × ℚ))) (q : List (String × ℚ))
    (hhit : ∃ x ∈ p, threshold < x.2) :
    scanScores threshold p = [WakeAction.resetModel, WakeAction.trigger]
    ∧ listenLoop threshold (p :: ps)
      = WakeAction.readFrame ::
        ([WakeAction.resetModel, WakeAction.trigger] ++ listenLoop threshold ps)
    ∧ (scanScores threshold q).count WakeAction.trigger ≤ 1 := by
  have hscan : ∀ r : List (String × ℚ), (∃ x ∈ r, threshold < x.2) →
      scanScores threshold r = [WakeAction.resetModel, WakeAction.trigger] := by
    intro r
    induction r with
    | nil => rintro ⟨x, hx, _⟩; simp at hx
    | cons a r ih =>
      rintro ⟨x, hx, hlt⟩
      simp only [scanScores]
      by_cases h : threshold < a.2
      · rw [if_pos h]
      · rw [if_neg h]
        rcases List.mem_cons.mp hx with rfl | hx
        · exact absurd hlt h
        · exact ih ⟨x, hx, hlt⟩
  refine ⟨hscan p hhit, ?_, ?_⟩
  · simp only [listenLoop, hscan p hhit]
  · induction q with
    | nil => simp [scanScores]
    | cons a q ih =>
      simp only [scanScores]
      by_cases h : threshold < a.2
      · rw [if_pos h]; decide
      · rw [if_neg h]; exact ih

/-- Witness for C4: threshold 1/2, a frame scoring 9/10 on the wake
phrase, one further frame below threshold, and a two-entry scan for the
at-most-one-trigger conjunct. -/
theorem wake_trigger_resets_once_witness :
    scanScores (1/2) [("hey_jarvis", 9/10)]
      = [WakeAction.resetModel, WakeAction.trigger]
    ∧ listenLoop (1/2) ([("hey_jarvis", 9/10)] :: [[("hey_jarvis", 1/10)]])
      = WakeAction.readFrame ::
        ([WakeAction.resetModel, WakeAction.trigger]
          ++ listenLoop (1/2) [[("hey_jarvis", 1/10)]])
    ∧ (scanScores (1/2) [("a", 3/4), ("b", 1)]).count WakeAction.trigger
      ≤ 1 :=
  wake_trigger_resets_once (1/2) [("hey_jarvis", 9/10)]
    [[("hey_jarvis", 1/10)]] [("a", 3/4), ("b", 1)]
    ⟨("hey_jarvis", 9/10), by simp, by norm_num⟩

end EchoVault

namespace EchoVault

/-! ## run_push_to_talk (src/main.py lines 49-106) -/

/-- Observable actions of one push-to-talk loop iteration. -/
inductive PttAction : Type
  | emitStatus (s : String)
  | emitUser (t : String)
  | emitAssistant (t : String)
  | printed (m : String)
  | callStt
  | callLlm
  | callTts
  | playAudio
deriving Repr, DecidableEq

/-- One iteration of the `run_push_to_talk` loop after the user pressed
Enter, lines 70-101, as the sequence of observable actions it performs:
`audio` is what `record_until_enter` returned, `sttText` what
`stt.transcribe` returns when it is called, `llmReply` what `llm.respond`
returns when it is called. Every branch falls through to the next
iteration of the surrounding `while True` (a `continue` or the loop end),
never aborting the process. -/
def pttIteration (audio : List Int) (sttText llmReply : String) :
    List PttAction :=
  PttAction.emitStatus "recording" ::
  (if audio.length = 0 then
    [PttAction.printed "No audio recorded.", PttAction.emitStatus "idle"]
  else
    [PttAction.emitStatus "transcribing", PttAction.printed "Transcribing...",
     PttAction.callStt]
    ++ (if sttText = "" then
          [PttAction.printed "Could not transcribe audio.",
           PttAction.emitStatus "idle"]
        else
          [PttAction.emitUser sttText, PttAction.emitStatus "thinking",
           PttAction.printed "Thinking...", PttAction.callLlm,
           PttAction.emitAssistant llmReply, PttAction.emitStatus "speaking",
           PttAction.printed "Speaking...", PttAction.callTts,
           PttAction.playAudio, PttAction.emitStatus "idle"]))

/-- C7: in manual-turn mode, a zero-length recording goes straight back
to idle with the "no audio" notification and the SpeechToText
collaborator is never called that turn; a non-empty recording whose
transcription comes back empty likewise returns to idle with a
notification and never reaches the response service; in both cases the
iteration's last action is the return to the idle status, handing
control back to the waiting loop rather than aborting. -/
theorem ptt_empty_paths (audio audio2 : List Int) (sttText llmReply : String)
    (hempty : audio.length = 0) (h2 : audio2.length ≠ 0) :
    pttIteration audio sttText llmReply
      = [PttAction.emitStatus "recording",
         PttAction.printed "No audio recorded.", PttAction.emitStatus "idle"]
    ∧ PttAction.callStt ∉ pttIteration audio sttText llmReply
    ∧ PttAction.callLlm ∉ pttIteration audio2 "" llmReply
    ∧ PttAction.callStt ∈ pttIteration audio2 "" llmReply
    ∧ (pttIteration audio2 "" llmReply).getLast?
      = some (PttAction.emitStatus "idle")
    ∧ (pttIteration audio sttText llmReply).getLast?
      = some (PttAction.emitStatus "idle") := by
  have e1 : pttIteration audio sttText llmReply
      = [PttAction.emitStatus "recording",
         PttAction.printed "No audio recorded.",
         PttAction.emitStatus "idle"] := by
    simp [pttIteration, hempty]
  have e2 : pttIteration audio2 "" llmReply
      = [PttAction.emitStatus "recording",
         PttAction.emitStatus "transcribing",
         PttAction.printed "Transcribing...", PttAction.callStt,
         PttAction.printed "Could not transcribe audio.",
         PttAction.emitStatus "idle"] := by
    simp [pttIteration, h2]
  refine ⟨e1, ?_, ?_, ?_, ?_, ?_⟩
  · rw [e1]; decide
  · rw [e2]; decide
  · rw [e2]; decide
  · rw [e2]; decide
  · rw [e1]; decide

/-- Witness for C7: an empty recording next to a one-sample recording
with an empty transcription. -/
theorem ptt_empty_paths_witness :
    pttIteration [] "anything" "reply"
      = [PttAction.emitStatus "recording",
         PttAction.printed "No audio recorded.", PttAction.emitStatus "idle"]
    ∧ PttAction.callStt ∉ pttIteration [] "anything" "reply"
    ∧ PttAction.callLlm ∉ pttIteration [5] "" "reply"
    ∧ PttAction.callStt ∈ pttIteration [5] "" "reply"
    ∧ (pttIteration [5] "" "reply").getLast?
      = some (PttAction.emitStatus "idle")
    ∧ (pttIteration [] "anything" "reply").getLast?
      = some (PttAction.emitStatus "idle") :=
  ptt_empty_paths [] [5] "anything" "reply" (by decide) (by decide)

/-! ## run_always_listening.on_wake_word (src/main.py lines 129-181) -/

/-- TurnController conversation state inside `on_wake_word`: the
cumulative silence in seconds (a float accumulating whole
`listen_window` increments, modelled as `ℚ`), the LLM conversation
history (role, content entries), and the last emitted status. -/
structure ConvState where
  cumulativeSilence : ℚ
  history : List (String × String)
  status : String
deriving Repr, DecidableEq

/-- External inputs consumed by one iteration of the `while True` loop of
`on_wake_word`: whether `record_with_vad` returned an empty utterance,
the transcription, and the LLM reply. -/
structure ConvIter where
  audioEmpty : Bool
  text : String
  reply : String
deriving Repr, DecidableEq

/-- Outcome of one conversation-loop iteration: keep looping or break. -/
inductive ConvStep : Type
  | next (s : ConvState)
  | exitLoop (s : ConvState)
deriving Repr, DecidableEq

/-- The state carried by either outcome. -/
def ConvStep.state : ConvStep → ConvState
  | ConvStep.next s => s
  | ConvStep.exitLoop s => s

/-- One iteration of the conversation loop, lines 134-175: emit
`listening` and record; an empty utterance adds one whole `listen_window`
to `cumulative_silence` and breaks when the idle limit is reached; a
non-empty utterance zeroes `cumulative_silence`, transcribes (an empty
transcription just continues), then runs the LLM exchange — appending the
user and assistant messages to the history — and speaks. -/
def convIteration (listenWindow idleLimit : ℚ) (maxHistoryPairs : Nat)
    (it : ConvIter) (s : ConvState) : ConvStep :=
  let s1 : ConvState := { s with status := "listening" }
  if it.audioEmpty then
    let s2 : ConvState :=
      { s1 with cumulativeSilence := s1.cumulativeSilence + listenWindow }
    if idleLimit ≤ s2.cumulativeSilence then ConvStep.exitLoop s2
    else ConvStep.next s2
  else
    let s2 : ConvState :=
      { s1 with cumulativeSilence := 0, status := "transcribing" }
    if it.text = "" then ConvStep.next s2
    else
      let s3 : ConvState :=
        { s2 with
          status := "thinking"
          history := respondHistory maxHistoryPairs s2.history
            ("user", it.text) ("assistant", it.reply) }
      ConvStep.next { s3 with status := "speaking" }

/-- The whole `on_wake_word` body, lines 134-181: run iterations until the
loop breaks; `none` when the supplied iteration inputs are exhausted with
the loop still running, `some s` when the loop broke, after which
`llm.reset_conversation()` clears the history and the status returns to
idle (wake-waiting). -/
def onWakeWordRun (listenWindow idleLimit : ℚ) (maxHistoryPairs : Nat) :
    List ConvIter → ConvState → Option ConvState
  | [], _ => none
  | it :: its, s =>
    match convIteration listenWindow idleLimit maxHistoryPairs it s with
    | ConvStep.next s' =>
      onWakeWordRun listenWindow idleLimit maxHistoryPairs its s'
    | ConvStep.exitLoop s' =>
      some
        { s' with
          history := reset_conversation s'.history
          status := "idle" }

/-- C3: an iteration returning an empty utterance adds exactly one whole
wait-window increment to the cumulative silence counter; an iteration
returning a non-empty utterance zeroes the counter whatever its prior
value; an empty iteration that brings the counter up to the idle limit
exits the loop; and whenever the loop exits, the response history has
been cleared and the controller is back at the idle wake-waiting
status. -/
theorem conv_silence_policy (listenWindow idleLimit : ℚ)
    (maxHistoryPairs : Nat) (it : ConvIter) (s : ConvState)
    (iters : List ConvIter) (s0 final : ConvState)
    (hrun : onWakeWordRun listenWindow idleLimit maxHistoryPairs iters s0
      = some final) :
    (it.audioEmpty = true →
      (ConvStep.state
          (convIteration listenWindow idleLimit maxHistoryPairs it s)
        ).cumulativeSilence = s.cumulativeSilence + listenWindow)
    ∧ (it.audioEmpty = false →
      (ConvStep.state
          (convIteration listenWindow idleLimit maxHistoryPairs it s)
        ).cumulativeSilence = 0)
    ∧ (it.audioEmpty = true →
      idleLimit ≤ s.cumulativeSilence + listenWindow →
      convIteration listenWindow idleLimit maxHistoryPairs it s
        = ConvStep.exitLoop
            ⟨s.cumulativeSilence + listenWindow, s.history, "listening"⟩)
    ∧ final.history = [] ∧ final.status = "idle" := by
  refine ⟨?_, ?_, ?_, ?_⟩
  · intro hemp
    by_cases hlim : idleLimit ≤ s.cumulativeSilence + listenWindow
    · simp [convIteration, hemp, hlim, ConvStep.state]
    · simp [convIteration, hemp, hlim, ConvStep.state]
  · intro hemp
    by_cases htext : it.text = ""
    · simp [convIteration, hemp, htext, ConvStep.state]
    · simp [convIteration, hemp, htext, ConvStep.state]
  · intro hemp hlim
    simp [convIteration, hemp, hlim]
  · clear it s
    induction iters generalizing s0 with
    | nil => simp [onWakeWordRun] at hrun
    | cons it its ih =>
      simp only [onWakeWordRun] at hrun
      cases hstep : convIteration listenWindow idleLimit maxHistoryPairs it s0 with
      | next s' =>
        rw [hstep] at hrun
        exact ih s' hrun
      | exitLoop s' =>
        rw [hstep] at hrun
        simp only [Option.some.injEq] at hrun
        rw [← hrun]
        exact ⟨rfl, rfl⟩

/-- Witness for C3: wait window 5 s, idle limit 30 s; one iteration from
25 s of accumulated silence with an empty utterance reaches the limit,
clears a one-entry history and returns to idle. -/
theorem conv_silence_policy_witness :
    ((⟨true, "", ""⟩ : ConvIter).audioEmpty = true →
      (ConvStep.state
          (convIteration 5 30 10 ⟨true, "", ""⟩
            ⟨25, [("user", "hi")], "speaking"⟩)).cumulativeSilence
        = (⟨25, [("user", "hi")], "speaking"⟩ : ConvState).cumulativeSilence
          + 5)
    ∧ ((⟨true, "", ""⟩ : ConvIter).audioEmpty = false →
      (ConvStep.state
          (convIteration 5 30 10 ⟨true, "", ""⟩
            ⟨25, [("user", "hi")], "speaking"⟩)).cumulativeSilence = 0)
    ∧ ((⟨true, "", ""⟩ : ConvIter).audioEmpty = true →
      (30 : ℚ) ≤ (⟨25, [("user", "hi")], "speaking"⟩ :
          ConvState).cumulativeSilence + 5 →
      convIteration 5 30 10 ⟨true, "", ""⟩ ⟨25, [("user", "hi")], "speaking"⟩
        = ConvStep.exitLoop
            ⟨(⟨25, [("user", "hi")], "speaking"⟩ :
                ConvState).cumulativeSilence + 5,
             (⟨25, [("user", "hi")], "speaking"⟩ : ConvState).history,
             "listening"⟩)
    ∧ (⟨30, [], "idle"⟩ : ConvState).history = []
    ∧ (⟨30, [], "idle"⟩ : ConvState).status = "idle" :=
  conv_silence_policy 5 30 10 ⟨true, "", ""⟩ ⟨25, [("user", "hi")], "speaking"⟩
    [⟨true, "", ""⟩] ⟨25, [("user", "hi")], "wake"⟩ ⟨30, [], "idle"⟩
    (by norm_num [onWakeWordRun, convIteration, reset_conversation])

end EchoVault
